import Mathlib

/-!
# Verification of the task-manager construction/validation core

Shallow embedding of the repository's Task domain core:

* `src/core/domain/task/types.ts` — enums `TaskPriority`, `TaskStatus`, and the
  `TaskId`, `Tag`, `Task` shapes;
* `src/core/domain/task/builder/task.builder.ts` — class `TaskBuilder`
  (constructor, the `with*` methods, `build`, and the private validators);
* the `TaskEntity` class (its `update` method applies a partial field set via
  `Object.assign` and then refreshes `updatedAt`).

Modelling conventions:

* JavaScript `Date` values are modelled as `Int` timestamps (milliseconds since
  the epoch).  Every `new Date()` call in the source becomes an explicit `Int`
  parameter of the embedded operation, supplied in the source's evaluation
  order; monotonicity of the real clock becomes an explicit hypothesis where a
  theorem needs it.  A `Date` argument that may be an Invalid Date (NaN time)
  is modelled as `Option Int`, `none` standing for an invalid date.
* JavaScript string truthiness (`!s`) is the test `s = ""`; for an optional
  string field it is `none` or `some ""`.
* `String.prototype.trim()` is modelled by `jsTrim`, which drops whitespace
  characters from both ends; `.length` is `String.length`.
* A thrown `TaskValidationError` is an `Except.error`.  A method's effect on
  the mutable draft is a pair `(Except TaskValidationError Unit × PartialTask)`:
  the second component is the state of `this.task` when the method returns or
  throws, mirroring the statement order of the source (validation first, then
  assignment).
-/

namespace TaskDomain

/-- `TaskPriority` enum from `types.ts`: LOW, MEDIUM, HIGH, URGENT. -/
inductive TaskPriority where
  | LOW
  | MEDIUM
  | HIGH
  | URGENT
  deriving DecidableEq, Repr

/-- `TaskStatus` enum from `types.ts`: TODO, IN_PROGRESS, REVIEW, DONE. -/
inductive TaskStatus where
  | TODO
  | IN_PROGRESS
  | REVIEW
  | DONE
  deriving DecidableEq, Repr

/-- `TaskId` from `types.ts`: a wrapper around an opaque string. -/
structure TaskId where
  value : String
  deriving DecidableEq, Repr

/-- `Tag` from `types.ts`: `{id: string, name: string, color?: string}`. -/
structure Tag where
  id : String
  name : String
  color : Option String := none
  deriving DecidableEq, Repr

/-- `Task` from `types.ts`.  Optional fields (`description?`, `dueDate?`,
`tags?`, `assigneeId?`) are `Option`s; `Date` fields are `Int` timestamps. -/
structure Task where
  id : TaskId
  title : String
  description : Option String
  status : TaskStatus
  priority : TaskPriority
  dueDate : Option Int
  tags : Option (List Tag)
  createdAt : Int
  updatedAt : Int
  assigneeId : Option String
  creatorId : String
  deriving DecidableEq, Repr

/-- The builder's internal `Partial<Task>` draft (`private task: Partial<Task>`).
The constructor populates `id`, `status`, `priority`, `createdAt`, `updatedAt`
and `creatorId`; the remaining keys start absent, hence `Option` here with
`none` meaning "key not set".  (`title` is `Option String` because `build()`
must be able to observe a missing title.) -/
structure PartialTask where
  id : TaskId
  title : Option String
  description : Option String
  status : TaskStatus
  priority : TaskPriority
  dueDate : Option Int
  tags : Option (List Tag)
  createdAt : Int
  updatedAt : Int
  assigneeId : Option String
  creatorId : String
  deriving DecidableEq, Repr

/-- `TaskValidationError` from `task.errors.ts`: carries a message string. -/
structure TaskValidationError where
  message : String
  deriving DecidableEq, Repr

/-- Model of `String.prototype.trim()`: remove whitespace from both ends. -/
def jsTrim (s : String) : String :=
  ⟨((s.data.dropWhile Char.isWhitespace).reverse.dropWhile Char.isWhitespace).reverse⟩

namespace TaskBuilder

/-- `TaskBuilder` constructor (`task.builder.ts` lines 57–66): seeds the draft
with a fresh id, `status = TODO`, `priority = MEDIUM`, `createdAt = new Date()`,
`updatedAt = new Date()` (two successive clock reads, `t1` then `t2` in source
evaluation order), and the `creatorId` verbatim. -/
def init (creatorId : String) (uuid : String) (t1 t2 : Int) : PartialTask :=
  { id := ⟨uuid⟩
    title := none
    description := none
    status := TaskStatus.TODO
    priority := TaskPriority.MEDIUM
    dueDate := none
    tags := none
    createdAt := t1
    updatedAt := t2
    assigneeId := none
    creatorId := creatorId }

/-- `validateTitle` (lines 146–153): throws if the title is empty after
trimming, or if its (untrimmed) length exceeds 100. -/
def validateTitle (title : String) : Except TaskValidationError Unit :=
  if jsTrim title = "" then
    .error ⟨"Title cannot be empty"⟩
  else if title.length > 100 then
    .error ⟨"Title must not exceed 100 characters"⟩
  else
    .ok ()

/-- `validatePriority` (lines 155–159): membership in the enum's values.  The
enumeration is closed, so the check always succeeds on a typed argument. -/
def validatePriority (priority : TaskPriority) : Except TaskValidationError Unit :=
  if priority ∈ [TaskPriority.LOW, TaskPriority.MEDIUM, TaskPriority.HIGH, TaskPriority.URGENT] then
    .ok ()
  else
    .error ⟨"Invalid priority value"⟩

/-- `validateDueDate` (lines 161–168): throws on an invalid date (`none`) or a
date earlier than `new Date()` (the clock read `now` made inside the check). -/
def validateDueDate (date : Option Int) (now : Int) : Except TaskValidationError Unit :=
  match date with
  | none => .error ⟨"Invalid due date"⟩
  | some t =>
    if t < now then
      .error ⟨"Due date cannot be in the past"⟩
    else
      .ok ()

/-- `validateTags` (lines 170–183): throws if some tag has an empty id or name,
or a name longer than 50.  (The `Array.isArray` guard always passes on a typed
argument.) -/
def validateTags (tags : List Tag) : Except TaskValidationError Unit :=
  match tags.find? (fun tag => tag.id = "" || tag.name = "" || tag.name.length > 50) with
  | some tag =>
    if tag.id = "" || tag.name = "" then
      .error ⟨"Each tag must have an id and name"⟩
    else
      .error ⟨"Tag name must not exceed 50 characters"⟩
  | none => .ok ()

/-- `withTitle` (lines 77–81): validate, then assign `this.task.title`. -/
def withTitle (s : PartialTask) (title : String) :
    Except TaskValidationError Unit × PartialTask :=
  match validateTitle title with
  | .error e => (.error e, s)
  | .ok _ => (.ok (), { s with title := some title })

/-- `withDescription` (lines 83–89): length check, then assign. -/
def withDescription (s : PartialTask) (description : String) :
    Except TaskValidationError Unit × PartialTask :=
  if description.length > 1000 then
    (.error ⟨"Description must not exceed 1000 characters"⟩, s)
  else
    (.ok (), { s with description := some description })

/-- `withPriority` (lines 91–95): validate, then assign. -/
def withPriority (s : PartialTask) (priority : TaskPriority) :
    Except TaskValidationError Unit × PartialTask :=
  match validatePriority priority with
  | .error e => (.error e, s)
  | .ok _ => (.ok (), { s with priority := priority })

/-- `withDueDate` (lines 97–101): validate against `now`, then assign. -/
def withDueDate (s : PartialTask) (date : Option Int) (now : Int) :
    Except TaskValidationError Unit × PartialTask :=
  match validateDueDate date now with
  | .error e => (.error e, s)
  | .ok _ => (.ok (), { s with dueDate := date })

/-- `withAssignee` (lines 103–109): reject an id that is empty after trimming,
otherwise assign. -/
def withAssignee (s : PartialTask) (assigneeId : String) :
    Except TaskValidationError Unit × PartialTask :=
  if jsTrim assigneeId = "" then
    (.error ⟨"Assignee ID cannot be empty"⟩, s)
  else
    (.ok (), { s with assigneeId := some assigneeId })

/-- `withTags` (lines 111–115): validate, then replace the tags wholesale. -/
def withTags (s : PartialTask) (tags : List Tag) :
    Except TaskValidationError Unit × PartialTask :=
  match validateTags tags with
  | .error e => (.error e, s)
  | .ok _ => (.ok (), { s with tags := tags })

/-- `validateRequiredFields` (lines 137–144): `!this.task.title` then
`!this.task.creatorId`, JavaScript falsiness on possibly-absent strings. -/
def validateRequiredFields (s : PartialTask) : Except TaskValidationError Unit :=
  if s.title = none ∨ s.title = some "" then
    .error ⟨"Title is required"⟩
  else if s.creatorId = "" then
    .error ⟨"Creator ID is required"⟩
  else
    .ok ()

/-- The cast `this.task as Task` performed by `build()` (line 129): reads the
draft as a `Task`, a missing title reading as the empty string.  `build()` only
performs it after `validateRequiredFields` has ruled the missing title out. -/
def draftAsTask (s : PartialTask) : Task :=
  { id := s.id
    title := s.title.getD ""
    description := s.description
    status := s.status
    priority := s.priority
    dueDate := s.dueDate
    tags := s.tags
    createdAt := s.createdAt
    updatedAt := s.updatedAt
    assigneeId := s.assigneeId
    creatorId := s.creatorId }

/-- `build` (lines 127–130): final required-field validation, then
`return this.task as Task`. -/
def build (s : PartialTask) : Except TaskValidationError Task :=
  match validateRequiredFields s with
  | .error e => .error e
  | .ok _ => .ok (draftAsTask s)

/-- `build()` returns `this.task` itself (`return this.task as Task`, line
129), not a copy: the caller's Task and the builder's draft are one object.
The caller's view of "the returned Task" at any later moment is therefore the
builder's draft at that moment, read as a `Task`. -/
def returnedTaskView (currentDraft : PartialTask) : Task :=
  draftAsTask currentDraft

end TaskBuilder

/-- One `with*` call, as data: which method, with which argument. -/
inductive BuilderOp where
  | withTitle (title : String)
  | withDescription (description : String)
  | withPriority (priority : TaskPriority)
  | withDueDate (date : Option Int)
  | withAssignee (assigneeId : String)
  | withTags (tags : List Tag)
  deriving DecidableEq, Repr

/-- Dispatch one builder call on the draft; `now` is the clock reading for the
`new Date()` that `validateDueDate` performs (unused by the other methods). -/
def applyOp (s : PartialTask) (op : BuilderOp) (now : Int) :
    Except TaskValidationError Unit × PartialTask :=
  match op with
  | .withTitle title => TaskBuilder.withTitle s title
  | .withDescription d => TaskBuilder.withDescription s d
  | .withPriority p => TaskBuilder.withPriority s p
  | .withDueDate date => TaskBuilder.withDueDate s date now
  | .withAssignee a => TaskBuilder.withAssignee s a
  | .withTags tags => TaskBuilder.withTags s tags

/-- Run a chain of builder calls, each paired with its clock reading; a thrown
`TaskValidationError` aborts the chain. -/
def runOps (s : PartialTask) : List (BuilderOp × Int) → Except TaskValidationError PartialTask
  | [] => .ok s
  | (op, now) :: rest =>
    match applyOp s op now with
    | (.error e, _) => .error e
    | (.ok _, s') => runOps s' rest

/-- A partial update set, `Partial<Omit<Task, 'id' | 'createdAt' | 'creatorId'>>`:
each remaining key of `Task` may be absent (`none`) or present with a value of
that field's type (so for an optional field the value is itself an `Option`).
Note the type does allow an `updatedAt` entry. -/
structure UpdatePatch where
  title : Option String := none
  description : Option (Option String) := none
  status : Option TaskStatus := none
  priority : Option TaskPriority := none
  dueDate : Option (Option Int) := none
  tags : Option (Option (List Tag)) := none
  updatedAt : Option Int := none
  assigneeId : Option (Option String) := none
  deriving DecidableEq, Repr

namespace TaskEntity

/-- `Object.assign(this, updates)`: every key present in the patch overwrites
the corresponding field; absent keys leave the field alone.  (`id`, `createdAt`
and `creatorId` are excluded from the patch type.) -/
def objectAssign (t : Task) (u : UpdatePatch) : Task :=
  { t with
    title := u.title.getD t.title
    description := u.description.getD t.description
    status := u.status.getD t.status
    priority := u.priority.getD t.priority
    dueDate := u.dueDate.getD t.dueDate
    tags := u.tags.getD t.tags
    updatedAt := u.updatedAt.getD t.updatedAt
    assigneeId := u.assigneeId.getD t.assigneeId }

/-- `TaskEntity.update` (part_000 lines 59–62): `Object.assign(this, updates)`
followed by `this.updatedAt = new Date()`, the clock reading `now`. -/
def update (t : Task) (u : UpdatePatch) (now : Int) : Task :=
  { objectAssign t u with updatedAt := now }

/-- A sequence of `update` calls, each with its patch and clock reading. -/
def runUpdates (t : Task) (us : List (UpdatePatch × Int)) : Task :=
  us.foldl (fun acc p => update acc p.1 p.2) t

end TaskEntity

/-- The value most recently set through `withTitle` in a chain, if any. -/
def lastTitle : List (BuilderOp × Int) → Option String
  | [] => none
  | (op, _) :: rest =>
    match lastTitle rest with
    | some v => some v
    | none => match op with | .withTitle v => some v | _ => none

/-- The value most recently set through `withDescription` in a chain, if any. -/
def lastDescription : List (BuilderOp × Int) → Option String
  | [] => none
  | (op, _) :: rest =>
    match lastDescription rest with
    | some v => some v
    | none => match op with | .withDescription v => some v | _ => none

/-- The value most recently set through `withPriority` in a chain, if any. -/
def lastPriority : List (BuilderOp × Int) → Option TaskPriority
  | [] => none
  | (op, _) :: rest =>
    match lastPriority rest with
    | some v => some v
    | none => match op with | .withPriority v => some v | _ => none

/-- The date most recently set through `withDueDate` in a chain, if any. -/
def lastDueDate : List (BuilderOp × Int) → Option (Option Int)
  | [] => none
  | (op, _) :: rest =>
    match lastDueDate rest with
    | some v => some v
    | none => match op with | .withDueDate v => some v | _ => none

/-- The id most recently set through `withAssignee` in a chain, if any. -/
def lastAssignee : List (BuilderOp × Int) → Option String
  | [] => none
  | (op, _) :: rest =>
    match lastAssignee rest with
    | some v => some v
    | none => match op with | .withAssignee v => some v | _ => none

/-- The tag list most recently set through `withTags` in a chain, if any. -/
def lastTags : List (BuilderOp × Int) → Option (List Tag)
  | [] => none
  | (op, _) :: rest =>
    match lastTags rest with
    | some v => some v
    | none => match op with | .withTags v => some v | _ => none

/-- A concrete existing Task record, as `build()` would produce it. -/
def sampleTask : Task :=
  { id := ⟨"id-0"⟩
    title := "Ship release"
    description := none
    status := TaskStatus.TODO
    priority := TaskPriority.HIGH
    dueDate := none
    tags := none
    createdAt := 5
    updatedAt := 5
    assigneeId := none
    creatorId := "u1" }

/-- The update set `{status: DONE}`. -/
def doneOnly : UpdatePatch := { status := some TaskStatus.DONE }

end TaskDomain

instance {ε α : Type} [DecidableEq ε] [DecidableEq α] : DecidableEq (Except ε α) := fun a b =>
  match a, b with
  | .ok x, .ok y =>
    if h : x = y then .isTrue (by rw [h]) else .isFalse (by intro hc; cases hc; exact h rfl)
  | .error x, .error y =>
    if h : x = y then .isTrue (by rw [h]) else .isFalse (by intro hc; cases hc; exact h rfl)
  | .ok _, .error _ => .isFalse (by intro hc; cases hc)
  | .error _, .ok _ => .isFalse (by intro hc; cases hc)

namespace TaskDomain

theorem length_dropWhile_le (p : Char → Bool) :
    ∀ l : List Char, (l.dropWhile p).length ≤ l.length
  | [] => Nat.le_refl _
  | a :: l => by
    rw [List.dropWhile_cons]
    split
    · exact Nat.le_trans (length_dropWhile_le p l) (Nat.le_succ _)
    · exact Nat.le_refl _

/-- Trimming never lengthens a string. -/
theorem jsTrim_length_le (s : String) : (jsTrim s).length ≤ s.length := by
  show (((s.data.dropWhile Char.isWhitespace).reverse.dropWhile
      Char.isWhitespace).reverse).length ≤ s.data.length
  rw [List.length_reverse]
  calc ((s.data.dropWhile Char.isWhitespace).reverse.dropWhile Char.isWhitespace).length
      ≤ (s.data.dropWhile Char.isWhitespace).reverse.length := length_dropWhile_le _ _
    _ = (s.data.dropWhile Char.isWhitespace).length := List.length_reverse _
    _ ≤ s.data.length := length_dropWhile_le _ _

/-- A non-empty string has length at least one. -/
theorem one_le_length_of_ne_empty (s : String) (h : s ≠ "") : 1 ≤ s.length := by
  cases s with
  | mk l =>
    cases l with
    | nil => exact absurd rfl h
    | cons a l => exact Nat.succ_le_succ (Nat.zero_le _)

/-- `validateTitle` succeeds exactly on titles non-empty after trimming whose
raw length is at most 100. -/
theorem validateTitle_ok_iff (title : String) :
    TaskBuilder.validateTitle title = .ok () ↔
      jsTrim title ≠ "" ∧ title.length ≤ 100 := by
  unfold TaskBuilder.validateTitle
  split
  · next h => exact iff_of_false (by simp) (fun hc => hc.1 h)
  · next h =>
    split
    · next h2 =>
      exact iff_of_false (by simp) (fun hc => absurd hc.2 (Nat.not_le.mpr h2))
    · next h2 => exact iff_of_true rfl ⟨h, Nat.not_lt.mp h2⟩

/-- `validateTags` succeeds exactly when every tag has a non-empty id, a
non-empty name, and a name of length at most 50. -/
theorem validateTags_ok_iff (tags : List Tag) :
    TaskBuilder.validateTags tags = .ok () ↔
      ∀ tag ∈ tags, tag.id ≠ "" ∧ tag.name ≠ "" ∧ tag.name.length ≤ 50 := by
  unfold TaskBuilder.validateTags
  split
  case h_1 tag hf =>
    have hmem := List.mem_of_find?_eq_some hf
    have hp := List.find?_some hf
    refine iff_of_false ?_ ?_
    · intro hc
      split at hc <;> simp at hc
    · intro h
      have h3 := h tag hmem
      simp only [Bool.or_eq_true, decide_eq_true_eq] at hp
      rcases hp with (h1 | h1) | h1
      · exact h3.1 h1
      · exact h3.2.1 h1
      · exact absurd h3.2.2 (Nat.not_le.mpr h1)
  case h_2 hf =>
    refine iff_of_true rfl ?_
    intro tag htag
    have htag' := List.find?_eq_none.mp hf tag htag
    simp only [Bool.or_eq_true, decide_eq_true_eq, not_or, Nat.not_lt] at htag'
    exact ⟨htag'.1.1, htag'.1.2, htag'.2⟩

/-- The field assignment a `with*` method performs on success. -/
def opEffect (s : PartialTask) : BuilderOp → PartialTask
  | .withTitle v => { s with title := some v }
  | .withDescription v => { s with description := some v }
  | .withPriority v => { s with priority := v }
  | .withDueDate v => { s with dueDate := v }
  | .withAssignee v => { s with assigneeId := some v }
  | .withTags v => { s with tags := v }

/-- On success, `applyOp` performs exactly the field assignment of the
corresponding `with*` method. -/
theorem applyOp_ok (s s1 : PartialTask) (op : BuilderOp) (now : Int)
    (h : applyOp s op now = (.ok (), s1)) :
    s1 = opEffect s op := by
  cases op <;>
    simp only [applyOp, TaskBuilder.withTitle, TaskBuilder.withDescription,
      TaskBuilder.withPriority, TaskBuilder.withDueDate, TaskBuilder.withAssignee,
      TaskBuilder.withTags] at h <;>
    (repeat' split at h) <;>
    simp_all [Prod.mk.injEq, opEffect]

/-- A successful chain never touches `id`, `status`, `createdAt`, `updatedAt`
or `creatorId`: no `with*` method assigns them. -/
theorem runOps_fixed (ops : List (BuilderOp × Int)) (s s' : PartialTask)
    (h : runOps s ops = .ok s') :
    s'.id = s.id ∧ s'.status = s.status ∧ s'.createdAt = s.createdAt ∧
      s'.updatedAt = s.updatedAt ∧ s'.creatorId = s.creatorId := by
  induction ops generalizing s with
  | nil =>
    cases h
    exact ⟨rfl, rfl, rfl, rfl, rfl⟩
  | cons p rest ih =>
    obtain ⟨op, now⟩ := p
    simp only [runOps] at h
    cases hap : applyOp s op now with
    | mk r s1 =>
      rw [hap] at h
      cases r with
      | error e => simp at h
      | ok u =>
        cases u
        have hs1 := applyOp_ok s s1 op now hap
        have ihr := ih s1 h
        cases op <;> (subst hs1; simp_all [opEffect])

/-- After a successful chain the draft's `title` is the argument of the last
`withTitle` call, or the initial title when the chain has none. -/
theorem runOps_title (ops : List (BuilderOp × Int)) (s s' : PartialTask)
    (h : runOps s ops = .ok s') :
    s'.title = (match lastTitle ops with | some v => some v | none => s.title) := by
  induction ops generalizing s with
  | nil => cases h; simp [lastTitle]
  | cons p rest ih =>
    obtain ⟨op, now⟩ := p
    simp only [runOps] at h
    cases hap : applyOp s op now with
    | mk r s1 =>
      rw [hap] at h
      cases r with
      | error e => simp at h
      | ok u =>
        cases u
        have hs1 := applyOp_ok s s1 op now hap
        have ihr := ih s1 h
        cases op <;>
          (subst hs1; simp only [lastTitle]; cases hl : lastTitle rest <;> simp_all [opEffect])

/-- After a successful chain the draft's `description` is the argument of the
last `withDescription` call, or the initial one when the chain has none. -/
theorem runOps_description (ops : List (BuilderOp × Int)) (s s' : PartialTask)
    (h : runOps s ops = .ok s') :
    s'.description =
      (match lastDescription ops with | some v => some v | none => s.description) := by
  induction ops generalizing s with
  | nil => cases h; simp [lastDescription]
  | cons p rest ih =>
    obtain ⟨op, now⟩ := p
    simp only [runOps] at h
    cases hap : applyOp s op now with
    | mk r s1 =>
      rw [hap] at h
      cases r with
      | error e => simp at h
      | ok u =>
        cases u
        have hs1 := applyOp_ok s s1 op now hap
        have ihr := ih s1 h
        cases op <;>
          (subst hs1; simp only [lastDescription];
            cases hl : lastDescription rest <;> simp_all [opEffect])

/-- After a successful chain the draft's `priority` is the argument of the
last `withPriority` call, or the initial one when the chain has none. -/
theorem runOps_priority (ops : List (BuilderOp × Int)) (s s' : PartialTask)
    (h : runOps s ops = .ok s') :
    s'.priority = (match lastPriority ops with | some v => v | none => s.priority) := by
  induction ops generalizing s with
  | nil => cases h; simp [lastPriority]
  | cons p rest ih =>
    obtain ⟨op, now⟩ := p
    simp only [runOps] at h
    cases hap : applyOp s op now with
    | mk r s1 =>
      rw [hap] at h
      cases r with
      | error e => simp at h
      | ok u =>
        cases u
        have hs1 := applyOp_ok s s1 op now hap
        have ihr := ih s1 h
        cases op <;>
          (subst hs1; simp only [lastPriority];
            cases hl : lastPriority rest <;> simp_all [opEffect])

/-- After a successful chain the draft's `dueDate` is the argument of the last
`withDueDate` call, or the initial one when the chain has none. -/
theorem runOps_dueDate (ops : List (BuilderOp × Int)) (s s' : PartialTask)
    (h : runOps s ops = .ok s') :
    s'.dueDate = (match lastDueDate ops with | some v => v | none => s.dueDate) := by
  induction ops generalizing s with
  | nil => cases h; simp [lastDueDate]
  | cons p rest ih =>
    obtain ⟨op, now⟩ := p
    simp only [runOps] at h
    cases hap : applyOp s op now with
    | mk r s1 =>
      rw [hap] at h
      cases r with
      | error e => simp at h
      | ok u =>
        cases u
        have hs1 := applyOp_ok s s1 op now hap
        have ihr := ih s1 h
        cases op <;>
          (subst hs1; simp only [lastDueDate];
            cases hl : lastDueDate rest <;> simp_all [opEffect])

/-- After a successful chain the draft's `assigneeId` is the argument of the
last `withAssignee` call, or the initial one when the chain has none. -/
theorem runOps_assignee (ops : List (BuilderOp × Int)) (s s' : PartialTask)
    (h : runOps s ops = .ok s') :
    s'.assigneeId =
      (match lastAssignee ops with | some v => some v | none => s.assigneeId) := by
  induction ops generalizing s with
  | nil => cases h; simp [lastAssignee]
  | cons p rest ih =>
    obtain ⟨op, now⟩ := p
    simp only [runOps] at h
    cases hap : applyOp s op now with
    | mk r s1 =>
      rw [hap] at h
      cases r with
      | error e => simp at h
      | ok u =>
        cases u
        have hs1 := applyOp_ok s s1 op now hap
        have ihr := ih s1 h
        cases op <;>
          (subst hs1; simp only [lastAssignee];
            cases hl : lastAssignee rest <;> simp_all [opEffect])

/-- After a successful chain the draft's `tags` is the argument of the last
`withTags` call, or the initial one when the chain has none. -/
theorem runOps_tags (ops : List (BuilderOp × Int)) (s s' : PartialTask)
    (h : runOps s ops = .ok s') :
    s'.tags = (match lastTags ops with | some v => some v | none => s.tags) := by
  induction ops generalizing s with
  | nil => cases h; simp [lastTags]
  | cons p rest ih =>
    obtain ⟨op, now⟩ := p
    simp only [runOps] at h
    cases hap : applyOp s op now with
    | mk r s1 =>
      rw [hap] at h
      cases r with
      | error e => simp at h
      | ok u =>
        cases u
        have hs1 := applyOp_ok s s1 op now hap
        have ihr := ih s1 h
        cases op <;>
          (subst hs1; simp only [lastTags]; cases hl : lastTags rest <;> simp_all [opEffect])

/-- `update` never changes `id`, `createdAt` or `creatorId`, so neither does a
sequence of updates. -/
theorem runUpdates_fixed (us : List (UpdatePatch × Int)) (t : Task) :
    (TaskEntity.runUpdates t us).id = t.id ∧
      (TaskEntity.runUpdates t us).createdAt = t.createdAt ∧
      (TaskEntity.runUpdates t us).creatorId = t.creatorId := by
  induction us generalizing t with
  | nil => exact ⟨rfl, rfl, rfl⟩
  | cons p rest ih =>
    obtain ⟨u, now⟩ := p
    have ihr := ih (TaskEntity.update t u now)
    simpa [TaskEntity.runUpdates, TaskEntity.update, TaskEntity.objectAssign] using ihr

/-- Any lower bound below the current `updatedAt` and below every clock reading
of a sequence of updates still bounds the final `updatedAt`. -/
theorem runUpdates_updatedAt_ge (us : List (UpdatePatch × Int)) (t : Task) (c : Int)
    (h0 : c ≤ t.updatedAt) (hall : ∀ p ∈ us, c ≤ p.2) :
    c ≤ (TaskEntity.runUpdates t us).updatedAt := by
  induction us generalizing t with
  | nil => exact h0
  | cons p rest ih =>
    obtain ⟨u, now⟩ := p
    have hnow : c ≤ now := hall (u, now) (List.mem_cons_self _ _)
    have hrest : ∀ q ∈ rest, c ≤ q.2 := fun q hq => hall q (List.mem_cons_of_mem _ hq)
    have : c ≤ (TaskEntity.update t u now).updatedAt := by
      simpa [TaskEntity.update] using hnow
    simpa [TaskEntity.runUpdates] using ih (TaskEntity.update t u now) this hrest

/-- On failure, `applyOp` leaves the draft exactly as it was: every `with*`
method validates before assigning. -/
theorem applyOp_error_frame (s : PartialTask) (op : BuilderOp) (now : Int)
    (e : TaskValidationError) (h : (applyOp s op now).1 = .error e) :
    (applyOp s op now).2 = s := by
  cases op <;>
    simp only [applyOp, TaskBuilder.withTitle, TaskBuilder.withDescription,
      TaskBuilder.withPriority, TaskBuilder.withDueDate, TaskBuilder.withAssignee,
      TaskBuilder.withTags] at h ⊢ <;>
    (repeat' split at h) <;>
    simp_all

end TaskDomain

namespace TaskDomain

/-- C10: for every partial update set passed to `update`, including one that
itself contains an `updatedAt` value, the record's `updatedAt` after the call
equals the time of the call; a caller-supplied `updatedAt` value is assigned
by `Object.assign` but immediately overwritten, hence never retained. -/
theorem c10_update_always_stamps_now (t : Task) (u : UpdatePatch) (now v : Int) :
    (TaskEntity.update t u now).updatedAt = now ∧
      (TaskEntity.update t { u with updatedAt := some v } now).updatedAt = now ∧
      (TaskEntity.objectAssign t { u with updatedAt := some v }).updatedAt = v :=
  ⟨rfl, rfl, rfl⟩

/-- C7: every `with*` operation, on an argument it rejects, raises a
`TaskValidationError` and leaves the builder's internal draft exactly as it
was before the call. -/
theorem c7_invalid_argument_leaves_draft_unchanged (s : PartialTask) (op : BuilderOp)
    (now : Int) (e : TaskValidationError) (h : (applyOp s op now).1 = .error e) :
    (applyOp s op now).2 = s :=
  applyOp_error_frame s op now e h

/-- Witness for C7: `withTitle('   ')` fails and leaves the fresh draft as it
was. -/
theorem c7_witness :
    (applyOp (TaskBuilder.init "u1" "id-1" 0 0) (.withTitle "   ") 0).2 =
      TaskBuilder.init "u1" "id-1" 0 0 :=
  c7_invalid_argument_leaves_draft_unchanged (TaskBuilder.init "u1" "id-1" 0 0)
    (.withTitle "   ") 0 ⟨"Title cannot be empty"⟩ (by decide)

/-- Counterexample to C8 as stated: the constructor performs two separate
clock reads for `createdAt` and `updatedAt`; with reads 0 then 1 (a monotone
clock), the two timestamps differ, against the claimed equality. -/
theorem c8_counterexample :
    (0 : Int) ≤ 1 ∧
      (TaskBuilder.init "u1" "id-1" 0 1).createdAt ≠
        (TaskBuilder.init "u1" "id-1" 0 1).updatedAt := by decide

/-- C8 amended: a fresh builder's draft has status TODO, priority MEDIUM, the
creatorId stored verbatim, and `createdAt`, `updatedAt` equal to the two
successive clock reads of the constructor, so `createdAt ≤ updatedAt` under a
monotone clock (equality only when the two reads coincide). -/
theorem c8_amended_init_defaults (creatorId uuid : String) (t1 t2 : Int) (h : t1 ≤ t2) :
    (TaskBuilder.init creatorId uuid t1 t2).status = TaskStatus.TODO ∧
      (TaskBuilder.init creatorId uuid t1 t2).priority = TaskPriority.MEDIUM ∧
      (TaskBuilder.init creatorId uuid t1 t2).creatorId = creatorId ∧
      (TaskBuilder.init creatorId uuid t1 t2).createdAt = t1 ∧
      (TaskBuilder.init creatorId uuid t1 t2).updatedAt = t2 ∧
      (TaskBuilder.init creatorId uuid t1 t2).createdAt ≤
        (TaskBuilder.init creatorId uuid t1 t2).updatedAt :=
  ⟨rfl, rfl, rfl, rfl, rfl, h⟩

/-- Witness for the amended C8 at a concrete construction. -/
theorem c8_amended_witness :
    (TaskBuilder.init "u1" "id-1" 5 5).status = TaskStatus.TODO ∧
      (TaskBuilder.init "u1" "id-1" 5 5).createdAt ≤
        (TaskBuilder.init "u1" "id-1" 5 5).updatedAt := by
  have h := c8_amended_init_defaults "u1" "id-1" 5 5 (by decide)
  exact ⟨h.1, h.2.2.2.2.2⟩

/-- A 101-character title whose trimmed form has exactly 100 characters. -/
def longTitleWithSpace : String := String.mk (List.replicate 100 'a') ++ " "

/-- Counterexample to C5 as stated: this title is non-empty after trimming and
its trimmed length is 100 ≤ 100, yet `withTitle` raises, because the source
checks the UNtrimmed length against 100. -/
theorem c5_counterexample :
    jsTrim longTitleWithSpace ≠ "" ∧
      (jsTrim longTitleWithSpace).length ≤ 100 ∧
      (TaskBuilder.withTitle (TaskBuilder.init "u1" "id-1" 0 0) longTitleWithSpace).1 =
        .error ⟨"Title must not exceed 100 characters"⟩ := by decide

/-- C5 amended: `withTitle` raises a `TaskValidationError` if and only if the
title is empty after trimming or its raw (untrimmed) length exceeds 100; on
success the title is stored unchanged, not trimmed. -/
theorem c5_amended_withTitle_spec (s : PartialTask) (title : String) :
    ((∃ e, (TaskBuilder.withTitle s title).1 = .error e) ↔
      (jsTrim title = "" ∨ title.length > 100)) ∧
      ((TaskBuilder.withTitle s title).1 = .ok () →
        (TaskBuilder.withTitle s title).2 = { s with title := some title }) := by
  cases hv : TaskBuilder.validateTitle title with
  | error e =>
    have hne : ¬(jsTrim title ≠ "" ∧ title.length ≤ 100) := by
      intro hc
      rw [(validateTitle_ok_iff title).mpr hc] at hv
      exact Except.noConfusion hv
    refine ⟨?_, ?_⟩
    · simp only [TaskBuilder.withTitle, hv]
      constructor
      · intro _
        by_contra hor
        push_neg at hor
        exact hne hor
      · intro _
        exact ⟨e, rfl⟩
    · simp only [TaskBuilder.withTitle, hv]
      intro hc
      exact Except.noConfusion hc
  | ok u =>
    cases u
    have hok := (validateTitle_ok_iff title).mp hv
    refine ⟨?_, ?_⟩
    · simp only [TaskBuilder.withTitle, hv]
      constructor
      · rintro ⟨e, he⟩
        exact Except.noConfusion he
      · rintro (h1 | h1)
        · exact absurd h1 hok.1
        · exact absurd hok.2 (Nat.not_le.mpr h1)
    · simp [TaskBuilder.withTitle, hv]

/-- Witness for the amended C5: `withTitle('Valid')` succeeds and stores the
title verbatim. -/
theorem c5_amended_witness :
    (TaskBuilder.withTitle (TaskBuilder.init "u1" "id-1" 0 0) "Valid").2 =
      { TaskBuilder.init "u1" "id-1" 0 0 with title := some "Valid" } :=
  (c5_amended_withTitle_spec (TaskBuilder.init "u1" "id-1" 0 0) "Valid").2 (by decide)

/-- C6: `build()` raises a `TaskValidationError` iff the draft's title is
missing or the empty string, or its creatorId is the empty string (JavaScript
falsiness of `this.task.title` and `this.task.creatorId`); a missing or empty
title produces the message "Title is required", which mentions the title; and
an empty-string creatorId makes `build()` fail even when a valid title is
present. -/
theorem c6_build_required_fields (s : PartialTask) :
    ((∃ e, TaskBuilder.build s = .error e) ↔
      (s.title = none ∨ s.title = some "" ∨ s.creatorId = "")) ∧
      ((s.title = none ∨ s.title = some "") →
        TaskBuilder.build s = .error ⟨"Title is required"⟩ ∧
          "Title".data <+: "Title is required".data) ∧
      (s.creatorId = "" → ∃ e, TaskBuilder.build s = .error e) := by
  by_cases h1 : s.title = none ∨ s.title = some ""
  · refine ⟨?_, ?_, ?_⟩
    · simp only [TaskBuilder.build, TaskBuilder.validateRequiredFields, if_pos h1]
      exact iff_of_true ⟨⟨"Title is required"⟩, rfl⟩ (by tauto)
    · intro _
      refine ⟨?_, by decide⟩
      simp only [TaskBuilder.build, TaskBuilder.validateRequiredFields, if_pos h1]
    · intro _
      simp only [TaskBuilder.build, TaskBuilder.validateRequiredFields, if_pos h1]
      exact ⟨⟨"Title is required"⟩, rfl⟩
  · by_cases h2 : s.creatorId = ""
    · refine ⟨?_, ?_, ?_⟩
      · simp only [TaskBuilder.build, TaskBuilder.validateRequiredFields, if_neg h1, if_pos h2]
        exact iff_of_true ⟨⟨"Creator ID is required"⟩, rfl⟩ (by tauto)
      · intro hc
        exact absurd hc h1
      · intro _
        simp only [TaskBuilder.build, TaskBuilder.validateRequiredFields, if_neg h1, if_pos h2]
        exact ⟨⟨"Creator ID is required"⟩, rfl⟩
    · refine ⟨?_, ?_, ?_⟩
      · simp only [TaskBuilder.build, TaskBuilder.validateRequiredFields, if_neg h1, if_neg h2]
        refine iff_of_false ?_ (by tauto)
        rintro ⟨e, he⟩
        exact Except.noConfusion he
      · intro hc
        exact absurd hc h1
      · intro hc
        exact absurd hc h2

/-- Witness for C6: a fresh builder (no title) fails with the title message,
and a builder with an empty creatorId fails despite a valid title. -/
theorem c6_witness :
    TaskBuilder.build (TaskBuilder.init "u1" "id-1" 0 0) = .error ⟨"Title is required"⟩ ∧
      (∃ e, TaskBuilder.build
        { TaskBuilder.init "" "id-2" 0 0 with title := some "Valid" } = .error e) := by
  refine ⟨((c6_build_required_fields (TaskBuilder.init "u1" "id-1" 0 0)).2.1 (by decide)).1, ?_⟩
  exact (c6_build_required_fields
    { TaskBuilder.init "" "id-2" 0 0 with title := some "Valid" }).2.2 (by decide)

end TaskDomain

namespace TaskDomain

/-- Eliminating a successful `build()`: the produced Task is the draft read as
a `Task`, the title was present and non-empty, and the creatorId non-empty. -/
theorem build_ok_elim (s : PartialTask) (task : Task)
    (h : TaskBuilder.build s = .ok task) :
    task = TaskBuilder.draftAsTask s ∧
      ¬(s.title = none ∨ s.title = some "") ∧ s.creatorId ≠ "" := by
  unfold TaskBuilder.build TaskBuilder.validateRequiredFields at h
  by_cases h1 : s.title = none ∨ s.title = some ""
  · rw [if_pos h1] at h
    exact absurd h (by simp)
  · by_cases h2 : s.creatorId = ""
    · rw [if_neg h1, if_pos h2] at h
      exact absurd h (by simp)
    · rw [if_neg h1, if_neg h2] at h
      simp only [Except.ok.injEq] at h
      exact ⟨h.symm, h1, h2⟩

/-- C4: for every chain of successful `with*` calls followed by a successful
`build()`, each field that was set equals the corresponding field of the
returned Task verbatim: the last `withTitle` argument is the Task's title
(untrimmed), the last `withTags` argument is the Task's tag list in the given
order, and likewise for description, priority, dueDate and assigneeId. -/
theorem c4_round_trip_fields (creatorId uuid : String) (t1 t2 : Int)
    (ops : List (BuilderOp × Int)) (s' : PartialTask) (task : Task)
    (hrun : runOps (TaskBuilder.init creatorId uuid t1 t2) ops = .ok s')
    (hbuild : TaskBuilder.build s' = .ok task) :
    (∀ v, lastTitle ops = some v → task.title = v) ∧
      (∀ v, lastDescription ops = some v → task.description = some v) ∧
      (∀ v, lastPriority ops = some v → task.priority = v) ∧
      (∀ v, lastDueDate ops = some v → task.dueDate = v) ∧
      (∀ v, lastAssignee ops = some v → task.assigneeId = some v) ∧
      (∀ v, lastTags ops = some v → task.tags = some v) := by
  obtain ⟨htask, -, -⟩ := build_ok_elim s' task hbuild
  subst htask
  refine ⟨?_, ?_, ?_, ?_, ?_, ?_⟩ <;> intro v hv
  · have h := runOps_title ops _ s' hrun
    rw [hv] at h
    simp [TaskBuilder.draftAsTask, h]
  · have h := runOps_description ops _ s' hrun
    rw [hv] at h
    simp [TaskBuilder.draftAsTask, h]
  · have h := runOps_priority ops _ s' hrun
    rw [hv] at h
    simp [TaskBuilder.draftAsTask, h]
  · have h := runOps_dueDate ops _ s' hrun
    rw [hv] at h
    simp [TaskBuilder.draftAsTask, h]
  · have h := runOps_assignee ops _ s' hrun
    rw [hv] at h
    simp [TaskBuilder.draftAsTask, h]
  · have h := runOps_tags ops _ s' hrun
    rw [hv] at h
    simp [TaskBuilder.draftAsTask, h]

/-- The chain of the spec's end-to-end example: title, priority, tags. -/
def c4ops : List (BuilderOp × Int) :=
  [(.withTitle "Ship release", 0), (.withPriority .HIGH, 0),
    (.withTags [{ id := "1", name := "ok" }], 0)]

/-- The draft those three calls produce from a fresh builder. -/
def c4draft : PartialTask :=
  { TaskBuilder.init "u1" "id-1" 0 0 with
    title := some "Ship release"
    priority := TaskPriority.HIGH
    tags := some [{ id := "1", name := "ok" }] }

/-- Witness for C4 on the spec's end-to-end example. -/
theorem c4_witness :
    (TaskBuilder.draftAsTask c4draft).title = "Ship release" ∧
      (TaskBuilder.draftAsTask c4draft).priority = TaskPriority.HIGH ∧
      (TaskBuilder.draftAsTask c4draft).tags = some [{ id := "1", name := "ok" }] := by
  have h := c4_round_trip_fields "u1" "id-1" 0 0 c4ops c4draft
    (TaskBuilder.draftAsTask c4draft) (by decide) (by decide)
  exact ⟨h.1 _ (by decide), h.2.2.1 _ (by decide), h.2.2.2.2.2 _ (by decide)⟩

/-- Counterexample to C3 as stated: `update({status: DONE})` performed in the
same millisecond as the previous stamp (clock reading 5, prior `updatedAt` 5)
leaves `updatedAt` equal, not strictly greater — the code assigns `new Date()`
with no strictness guarantee. -/
theorem c3_counterexample :
    (TaskEntity.update sampleTask doneOnly 5).status = TaskStatus.DONE ∧
      ¬ sampleTask.updatedAt < (TaskEntity.update sampleTask doneOnly 5).updatedAt := by
  decide

/-- C3 amended: `update({status: DONE})` changes only `status` and
`updatedAt`; the new `updatedAt` equals the clock reading of the call, hence
is greater than or equal to the prior `updatedAt` whenever the clock has not
gone backwards (equality is possible within one millisecond); `id`,
`createdAt`, `creatorId`, `title`, `description`, `priority`, `dueDate`,
`tags` and `assigneeId` are unchanged. -/
theorem c3_amended_update_done_frame (t : Task) (now : Int) (h : t.updatedAt ≤ now) :
    (TaskEntity.update t doneOnly now).status = TaskStatus.DONE ∧
      (TaskEntity.update t doneOnly now).updatedAt = now ∧
      t.updatedAt ≤ (TaskEntity.update t doneOnly now).updatedAt ∧
      (TaskEntity.update t doneOnly now).id = t.id ∧
      (TaskEntity.update t doneOnly now).createdAt = t.createdAt ∧
      (TaskEntity.update t doneOnly now).creatorId = t.creatorId ∧
      (TaskEntity.update t doneOnly now).title = t.title ∧
      (TaskEntity.update t doneOnly now).description = t.description ∧
      (TaskEntity.update t doneOnly now).priority = t.priority ∧
      (TaskEntity.update t doneOnly now).dueDate = t.dueDate ∧
      (TaskEntity.update t doneOnly now).tags = t.tags ∧
      (TaskEntity.update t doneOnly now).assigneeId = t.assigneeId :=
  ⟨rfl, rfl, h, rfl, rfl, rfl, rfl, rfl, rfl, rfl, rfl, rfl⟩

/-- Witness for the amended C3 at a later clock reading. -/
theorem c3_amended_witness :
    (TaskEntity.update sampleTask doneOnly 7).status = TaskStatus.DONE ∧
      (TaskEntity.update sampleTask doneOnly 7).updatedAt = 7 ∧
      (TaskEntity.update sampleTask doneOnly 7).title = sampleTask.title := by
  obtain ⟨h1, h2, h3, h4, h5, h6, h7, h8, h9, h10, h11, h12⟩ :=
    c3_amended_update_done_frame sampleTask 7 (by decide)
  exact ⟨h1, h2, h7⟩

/-- Draft after `new TaskBuilder('u1')` followed by `withTitle('First title')`. -/
def c1draft1 : PartialTask :=
  { TaskBuilder.init "u1" "id-1" 0 0 with title := some "First title" }

/-- The same draft object after the builder is further mutated by
`withTitle('Second title')`. -/
def c1draft2 : PartialTask := { c1draft1 with title := some "Second title" }

/-- C1 evaluated at the failing input: `withTitle('First title')` succeeds,
`build()` succeeds and returns the draft object itself (`return this.task as
Task`, no copy), a later `withTitle('Second title')` on the same builder
succeeds and mutates that object, and the Task the caller already holds now
reads title "Second title" — the returned Task is not an independent
snapshot. -/
theorem c1_alias_evaluation :
    applyOp (TaskBuilder.init "u1" "id-1" 0 0) (.withTitle "First title") 0 =
        (.ok (), c1draft1) ∧
      TaskBuilder.build c1draft1 = .ok (TaskBuilder.returnedTaskView c1draft1) ∧
      (TaskBuilder.returnedTaskView c1draft1).title = "First title" ∧
      applyOp c1draft1 (.withTitle "Second title") 1 = (.ok (), c1draft2) ∧
      (TaskBuilder.returnedTaskView c1draft2).title = "Second title" ∧
      TaskBuilder.returnedTaskView c1draft2 ≠ TaskBuilder.returnedTaskView c1draft1 := by
  decide

end TaskDomain

namespace TaskDomain

/-- The field constraints of the data model on an assembled Task: title 1–100
chars after trimming; description at most 1000 chars; each tag with a
non-empty id and a non-empty name of at most 50 chars; assigneeId non-empty
after trimming when present.  (`status` and `priority` lie in their
enumerations by typing.) -/
def taskWF (t : Task) : Prop :=
  1 ≤ (jsTrim t.title).length ∧ (jsTrim t.title).length ≤ 100 ∧
    (∀ d ∈ t.description, d.length ≤ 1000) ∧
    (∀ ts ∈ t.tags, ∀ tag ∈ ts, tag.id ≠ "" ∧ tag.name ≠ "" ∧ tag.name.length ≤ 50) ∧
    (∀ a ∈ t.assigneeId, jsTrim a ≠ "")

instance (t : Task) : Decidable (taskWF t) := by
  unfold taskWF
  infer_instance

/-- What per-field validation guarantees about every field the draft holds. -/
def draftWF (s : PartialTask) : Prop :=
  (∀ v ∈ s.title, jsTrim v ≠ "" ∧ v.length ≤ 100) ∧
    (∀ d ∈ s.description, d.length ≤ 1000) ∧
    (∀ ts ∈ s.tags, ∀ tag ∈ ts, tag.id ≠ "" ∧ tag.name ≠ "" ∧ tag.name.length ≤ 50) ∧
    (∀ a ∈ s.assigneeId, jsTrim a ≠ "")

/-- Every successful `with*` call keeps the draft's fields validated. -/
theorem applyOp_preserves_draftWF (s s1 : PartialTask) (op : BuilderOp) (now : Int)
    (h : applyOp s op now = (.ok (), s1)) (hwf : draftWF s) : draftWF s1 := by
  obtain ⟨hT, hD, hG, hA⟩ := hwf
  cases op with
  | withTitle v =>
    cases hv : TaskBuilder.validateTitle v with
    | error e => simp [applyOp, TaskBuilder.withTitle, hv] at h
    | ok u =>
      cases u
      have hs1 := applyOp_ok s s1 _ now h
      subst hs1
      have hfacts := (validateTitle_ok_iff v).mp hv
      refine ⟨?_, hD, hG, hA⟩
      intro w hw
      simp only [opEffect, Option.mem_def, Option.some.injEq] at hw
      subst hw
      exact hfacts
  | withDescription v =>
    simp only [applyOp, TaskBuilder.withDescription] at h
    split at h
    · simp at h
    · next hlen =>
      simp only [Prod.mk.injEq] at h
      obtain ⟨-, hs1⟩ := h
      subst hs1
      refine ⟨hT, ?_, hG, hA⟩
      intro d hd
      simp only [Option.mem_def, Option.some.injEq] at hd
      subst hd
      omega
  | withPriority v =>
    have hs1 := applyOp_ok s s1 _ now h
    subst hs1
    exact ⟨hT, hD, hG, hA⟩
  | withDueDate v =>
    have hs1 := applyOp_ok s s1 _ now h
    subst hs1
    exact ⟨hT, hD, hG, hA⟩
  | withAssignee v =>
    simp only [applyOp, TaskBuilder.withAssignee] at h
    split at h
    · simp at h
    · next hne =>
      simp only [Prod.mk.injEq] at h
      obtain ⟨-, hs1⟩ := h
      subst hs1
      refine ⟨hT, hD, hG, ?_⟩
      intro a ha
      simp only [Option.mem_def, Option.some.injEq] at ha
      subst ha
      exact hne
  | withTags v =>
    cases hv : TaskBuilder.validateTags v with
    | error e => simp [applyOp, TaskBuilder.withTags, hv] at h
    | ok u =>
      cases u
      have hs1 := applyOp_ok s s1 _ now h
      subst hs1
      have hfacts := (validateTags_ok_iff v).mp hv
      refine ⟨hT, hD, ?_, hA⟩
      intro ts hts
      simp only [opEffect, Option.mem_def, Option.some.injEq] at hts
      subst hts
      exact hfacts

/-- A successful chain keeps the draft's fields validated. -/
theorem runOps_preserves_draftWF (ops : List (BuilderOp × Int)) (s s' : PartialTask)
    (h : runOps s ops = .ok s') (hwf : draftWF s) : draftWF s' := by
  induction ops generalizing s with
  | nil => cases h; exact hwf
  | cons p rest ih =>
    obtain ⟨op, now⟩ := p
    simp only [runOps] at h
    cases hap : applyOp s op now with
    | mk r s1 =>
      rw [hap] at h
      cases r with
      | error e => simp at h
      | ok u =>
        cases u
        exact ih s1 h (applyOp_preserves_draftWF s s1 op now hap hwf)

/-- A concrete Task produced by a successful `build()`. -/
def c2task : Task :=
  TaskBuilder.draftAsTask { TaskBuilder.init "u1" "id-2" 0 0 with title := some "Valid" }

/-- Counterexample to C2 as stated: a validly built Task satisfies the field
constraints, but a subsequent `update({title: ""})` — which performs no
validation — leaves the record with an empty title, violating the data
model's title constraint. -/
theorem c2_counterexample :
    TaskBuilder.build { TaskBuilder.init "u1" "id-2" 0 0 with title := some "Valid" } =
        .ok c2task ∧
      taskWF c2task ∧
      ¬ taskWF (TaskEntity.update c2task { title := some "" } 1) := by decide

/-- C2 amended: every Task record, at the moment a successful `build()`
returns it (after any chain of successful `with*` calls), satisfies the field
constraints of the data model; `update` performs no validation, so a
subsequent update whose values violate the constraints leaves them violated. -/
theorem c2_amended_built_tasks_wf (creatorId uuid : String) (t1 t2 : Int)
    (ops : List (BuilderOp × Int)) (s' : PartialTask) (task : Task)
    (hrun : runOps (TaskBuilder.init creatorId uuid t1 t2) ops = .ok s')
    (hbuild : TaskBuilder.build s' = .ok task) :
    taskWF task := by
  have hwf0 : draftWF (TaskBuilder.init creatorId uuid t1 t2) := by
    refine ⟨?_, ?_, ?_, ?_⟩ <;> intro x hx <;> simp [TaskBuilder.init] at hx
  have hwf := runOps_preserves_draftWF ops _ s' hrun hwf0
  obtain ⟨htask, hts, -⟩ := build_ok_elim s' task hbuild
  subst htask
  obtain ⟨hT, hD, hG, hA⟩ := hwf
  push_neg at hts
  cases hv : s'.title with
  | none => exact absurd hv hts.1
  | some v =>
    have hvfacts := hT v (by simp [hv])
    have htitle : (TaskBuilder.draftAsTask s').title = v := by
      simp [TaskBuilder.draftAsTask, hv]
    refine ⟨?_, ?_, hD, hG, hA⟩
    · rw [htitle]
      exact one_le_length_of_ne_empty _ hvfacts.1
    · rw [htitle]
      exact Nat.le_trans (jsTrim_length_le v) hvfacts.2

/-- The draft of the witness chain for the amended C2. -/
def c2wdraft : PartialTask :=
  { TaskBuilder.init "u1" "id-3" 0 0 with title := some "Valid" }

/-- Witness for the amended C2 on a concrete successful construction. -/
theorem c2_amended_witness : taskWF (TaskBuilder.draftAsTask c2wdraft) :=
  c2_amended_built_tasks_wf "u1" "id-3" 0 0 [(.withTitle "Valid", 0)] c2wdraft
    (TaskBuilder.draftAsTask c2wdraft) (by decide) (by decide)

/-- C9: for a Task produced by `build()` and any subsequent sequence of
`update` calls, `updatedAt ≥ createdAt` holds immediately after construction
and after every update, provided the clock never runs backwards (the
constructor's two reads are ordered and every update's reading is at least the
construction time). -/
theorem c9_updatedAt_ge_createdAt (creatorId uuid : String) (t1 t2 : Int)
    (ops : List (BuilderOp × Int)) (s' : PartialTask) (task : Task)
    (us : List (UpdatePatch × Int))
    (hclock : t1 ≤ t2)
    (hrun : runOps (TaskBuilder.init creatorId uuid t1 t2) ops = .ok s')
    (hbuild : TaskBuilder.build s' = .ok task)
    (hus : ∀ p ∈ us, t1 ≤ p.2) :
    task.createdAt ≤ task.updatedAt ∧
      (TaskEntity.runUpdates task us).createdAt ≤
        (TaskEntity.runUpdates task us).updatedAt := by
  obtain ⟨htask, -, -⟩ := build_ok_elim s' task hbuild
  subst htask
  obtain ⟨-, -, hca, hua, -⟩ := runOps_fixed ops _ s' hrun
  have h1 : (TaskBuilder.draftAsTask s').createdAt = t1 := by
    simp [TaskBuilder.draftAsTask, hca, TaskBuilder.init]
  have h2 : (TaskBuilder.draftAsTask s').updatedAt = t2 := by
    simp [TaskBuilder.draftAsTask, hua, TaskBuilder.init]
  constructor
  · rw [h1, h2]
    exact hclock
  · obtain ⟨-, hfc, -⟩ := runUpdates_fixed us (TaskBuilder.draftAsTask s')
    rw [hfc, h1]
    exact runUpdates_updatedAt_ge us _ t1 (by rw [h2]; exact hclock) hus

/-- The patch of the witness sequence for C9. -/
def c9patch : UpdatePatch := { status := some TaskStatus.DONE }

/-- The built draft of the witness sequence for C9. -/
def c9draft : PartialTask :=
  { TaskBuilder.init "u1" "id-4" 0 0 with title := some "Valid" }

/-- Witness for C9: construct, build, then one update at a later reading. -/
theorem c9_witness :
    (TaskEntity.runUpdates (TaskBuilder.draftAsTask c9draft) [(c9patch, 9)]).createdAt ≤
      (TaskEntity.runUpdates (TaskBuilder.draftAsTask c9draft) [(c9patch, 9)]).updatedAt :=
  (c9_updatedAt_ge_createdAt "u1" "id-4" 0 0 [(.withTitle "Valid", 0)] c9draft
    (TaskBuilder.draftAsTask c9draft) [(c9patch, 9)] (by decide) (by decide) (by decide)
    (by decide)).2

end TaskDomain
